import Mathlib

/-!
Shallow embedding of the airbnb-lock-sync repository core:
`src/airbnb_ical/airbnb_ical.py` (`get_future_events`) and the
reconciliation pass of `src/main.py` (`check_code`, `create_code`,
`update_code`, `delete_code` and the `__main__` loop).

Modelling conventions:
- Python `datetime` objects are `PyDateTime`: civil wall-clock fields plus
  an optional fixed UTC offset in seconds (`none` = naive).  Time zones
  (`ZoneInfo`) are modelled as fixed UTC offsets; DST transitions are out
  of scope for the verified claims.
- Machine integers are `Int`/`Nat` (Python ints are unbounded anyway).
- Exceptions (`ValueError` from `int(...)` / `datetime.replace`) are
  modelled with `Except PassErr`.
- The HTTP fetch is an input: `none` models `requests.RequestException`
  (unreachable source or non-success status via `raise_for_status`),
  `some comps` models a successfully fetched and parsed calendar, given
  as the list of components that `calendar.walk()` yields.
-/

namespace AirbnbSync

/-- Error raised by the embedded Python code (`ValueError` from `int()` or
from `datetime.replace` range validation). -/
inductive PassErr
  | valueError
deriving DecidableEq

/-! ## Civil calendar arithmetic (Gregorian, proleptic) -/

/-- Days since 1970-01-01 of a civil date (Howard Hinnant's algorithm). -/
def daysFromCivil (y m d : Int) : Int :=
  let y2 := if m ≤ 2 then y - 1 else y
  let era := Int.fdiv y2 400
  let yoe := y2 - era * 400
  let mp := if m > 2 then m - 3 else m + 9
  let doy := (153 * mp + 2) / 5 + d - 1
  let doe := yoe * 365 + yoe / 4 - yoe / 100 + doy
  era * 146097 + doe - 719468

/-- Civil date (year, month, day) of a count of days since 1970-01-01. -/
def civilFromDays (z0 : Int) : Int × Int × Int :=
  let z := z0 + 719468
  let era := Int.fdiv z 146097
  let doe := z - era * 146097
  let yoe := (doe - doe / 1460 + doe / 36524 - doe / 146096) / 365
  let y := yoe + era * 400
  let doy := doe - (365 * yoe + yoe / 4 - yoe / 100)
  let mp := (5 * doy + 2) / 153
  let d := doy - (153 * mp + 2) / 5 + 1
  let m := if mp < 10 then mp + 3 else mp - 9
  (if m ≤ 2 then y + 1 else y, m, d)

/-- Model of a Python `datetime.datetime`: civil wall-clock fields plus an
optional fixed UTC offset in seconds (`none` models a naive datetime,
`some 0` models `timezone.utc`). -/
structure PyDateTime where
  year : Int
  month : Int
  day : Int
  hour : Int
  minute : Int
  second : Int
  microsecond : Nat
  tzOffset : Option Int
deriving DecidableEq

/-- Wall-clock seconds since epoch of the civil fields (offset ignored). -/
def wallSeconds (t : PyDateTime) : Int :=
  daysFromCivil t.year t.month t.day * 86400
    + t.hour * 3600 + t.minute * 60 + t.second

/-- The absolute instant of an aware datetime, in microseconds since epoch
(Python compares aware datetimes by this value). -/
def instantMicro (t : PyDateTime) : Int :=
  (wallSeconds t - (t.tzOffset.getD 0)) * 1000000 + t.microsecond

/-- Rebuild civil fields from epoch seconds. -/
def fromEpochSeconds (s : Int) (micro : Nat) (tz : Option Int) : PyDateTime :=
  let days := Int.fdiv s 86400
  let rem := s - days * 86400
  let c := civilFromDays days
  { year := c.1, month := c.2.1, day := c.2.2,
    hour := rem / 3600, minute := rem % 3600 / 60, second := rem % 60,
    microsecond := micro, tzOffset := tz }

/-- Model of `dt.astimezone(timezone.utc)` for an aware `dt`. -/
def astimezoneUtc (t : PyDateTime) : PyDateTime :=
  fromEpochSeconds (wallSeconds t - t.tzOffset.getD 0) t.microsecond (some 0)

/-- Model of `dt + timedelta(days=n)` (wall-clock arithmetic, zone kept). -/
def addDays (t : PyDateTime) (n : Int) : PyDateTime :=
  fromEpochSeconds (wallSeconds t + n * 86400) t.microsecond t.tzOffset

/-- Model of `dt.replace(hour=h, minute=m, second=s)`, including the
`ValueError` range validation Python performs. -/
def replaceTime (t : PyDateTime) (h m s : Int) : Except PassErr PyDateTime :=
  if 0 ≤ h ∧ h ≤ 23 ∧ 0 ≤ m ∧ m ≤ 59 ∧ 0 ≤ s ∧ s ≤ 59 then
    .ok { t with hour := h, minute := m, second := s }
  else .error .valueError

/-! ## Digit and string helpers (models of Python `str`/`int`) -/

def isDigitChar (c : Char) : Bool :=
  decide ('0' ≤ c) && decide (c ≤ '9')

def charVal (c : Char) : Nat := c.toNat - 48

/-- Numeric value of a big-endian digit string. -/
def digitsVal (l : List Char) : Nat :=
  l.foldl (fun a c => a * 10 + charVal c) 0

/-- Decimal digits of `n`, least significant first, with structural fuel
(`fuel > n` always suffices, since `n / 10` shrinks). -/
def digitsRevFuel : Nat → Nat → List Char
  | 0, _ => []
  | fuel + 1, n =>
    if n < 10 then [Nat.digitChar n]
    else Nat.digitChar (n % 10) :: digitsRevFuel fuel (n / 10)

/-- Decimal digits of `n`, least significant first. -/
def digitsRev (n : Nat) : List Char := digitsRevFuel (n + 1) n

/-- Decimal rendering of a natural number (model of Python `str`). -/
def natRepr (n : Nat) : String := String.mk (digitsRev n).reverse

/-- Decimal rendering of an integer (model of Python `str`). -/
def intRepr (n : Int) : String :=
  if n < 0 then "-" ++ natRepr n.natAbs else natRepr n.toNat

/-- Model of `str(reservation['last_digits'])`: Python renders `None` as
the string `"None"`. -/
def pyStr (v : Option Int) : String :=
  match v with
  | none => "None"
  | some n => intRepr n

/-- Whitespace stripped by Python `int()` and matched by the regex `\s`. -/
def isPySpace (c : Char) : Bool :=
  c = ' ' || c = '\t' || c = '\n' || c = '\r' || c = '\x0b' || c = '\x0c'

def pyTrim (l : List Char) : List Char :=
  ((l.dropWhile isPySpace).reverse.dropWhile isPySpace).reverse

/-- Parse a nonempty all-digit char list. -/
def digitsOnly (l : List Char) : Option Nat :=
  if l.isEmpty then none
  else if l.all isDigitChar then some (digitsVal l)
  else none

def pyIntCore (l : List Char) : Option Int :=
  match l with
  | [] => none
  | c :: rest =>
    if c = '-' then (digitsOnly rest).map (fun m => -(m : Int))
    else if c = '+' then (digitsOnly rest).map (fun m => (m : Int))
    else (digitsOnly (c :: rest)).map (fun m => (m : Int))

/-- Model of Python `int(s)` for decimal strings: optional surrounding
whitespace, optional sign, digits; `none` models the raised `ValueError`.
(Underscore digit separators are not modelled.) -/
def pyInt? (s : String) : Option Int :=
  pyIntCore (pyTrim s.data)

/-- Zero-padded decimal rendering. -/
def padNum (w : Nat) (n : Nat) : String :=
  let s := natRepr n
  String.mk (List.replicate (w - s.length) '0') ++ s

/-- Model of `datetime.isoformat()`: `YYYY-MM-DDTHH:MM:SS[.ffffff][+HH:MM]`
(negative years are outside the modelled range; offsets are whole minutes). -/
def isoformat (t : PyDateTime) : String :=
  let dateStr := padNum 4 t.year.toNat ++ "-" ++ padNum 2 t.month.toNat
      ++ "-" ++ padNum 2 t.day.toNat
  let timeStr := padNum 2 t.hour.toNat ++ ":" ++ padNum 2 t.minute.toNat
      ++ ":" ++ padNum 2 t.second.toNat
  let fracStr := if t.microsecond = 0 then "" else "." ++ padNum 6 t.microsecond
  let offStr :=
    match t.tzOffset with
    | none => ""
    | some off =>
      let sign := if off < 0 then "-" else "+"
      let a := off.natAbs
      sign ++ padNum 2 (a / 3600) ++ ":" ++ padNum 2 (a % 3600 / 60)
  dateStr ++ "T" ++ timeStr ++ fracStr ++ offStr

/-! ## Models of the two regular-expression searches over the description

`re.search(r'https://www\.airbnb\.com/hosting/reservations/details/([A-Z0-9]+)', d)`
and `re.search(r'Phone Number \(Last 4 Digits\):\s*(\d{4})', d)`,
scanning left to right for the first position where the whole pattern
matches. -/

/-- `startsList pat l`: `pat` is an initial segment of `l`. -/
def startsList : List Char → List Char → Bool
  | [], _ => true
  | _ :: _, [] => false
  | a :: as, b :: bs => a = b && startsList as bs

/-- Character class `[A-Z0-9]`. -/
def isConfChar (c : Char) : Bool :=
  (decide ('A' ≤ c) && decide (c ≤ 'Z')) || isDigitChar c

/-- The fixed URL text preceding the confirmation code in the pattern. -/
def urlPat : List Char :=
  "https://www.airbnb.com/hosting/reservations/details/".data

/-- Search for the URL pattern; returns the capture group `[A-Z0-9]+`
(the maximal run, per greedy matching) at the first position where the
whole pattern matches. -/
def searchUrl : List Char → Option (List Char)
  | [] => none
  | c :: rest =>
    if startsList urlPat (c :: rest) then
      let run := ((c :: rest).drop urlPat.length).takeWhile isConfChar
      if run.isEmpty then searchUrl rest else some run
    else searchUrl rest

/-- `url_match.group(0)`: the whole matched text. -/
def urlString (grp : List Char) : String := String.mk (urlPat ++ grp)

/-- The fixed label text in the phone-digits pattern. -/
def phoneLabel : List Char := "Phone Number (Last 4 Digits):".data

/-- Search for the phone-digits pattern; returns the four captured digit
characters (`\s*` eats the maximal whitespace run; whitespace is never a
digit, so no backtracking case arises). -/
def searchDigits : List Char → Option (List Char)
  | [] => none
  | c :: rest =>
    if startsList phoneLabel (c :: rest) then
      let ds := (((c :: rest).drop phoneLabel.length).dropWhile isPySpace).take 4
      if ds.length = 4 && ds.all isDigitChar then some ds else searchDigits rest
    else searchDigits rest

/-- `int(digits_match.group(1))`: the four captured digits as an integer
(this is where a leading zero is dropped). -/
def digitsToInt (l : List Char) : Int := (digitsVal l : Int)

/-! ## Calendar model and `get_future_events` -/

/-- The `.dt` value of a `DTSTART`/`DTEND` property: either a `date` or a
`datetime` (naive or aware). -/
inductive DtValue
  | date (y m d : Int)
  | dateTime (t : PyDateTime)
deriving DecidableEq

/-- One component yielded by `calendar.walk()`. -/
structure Component where
  name : String
  summary : Option String
  dtstart : Option DtValue
  dtend : Option DtValue
  description : Option String
deriving DecidableEq

/-- Lines 59-64 / 71-74 of `airbnb_ical.py`: a plain date becomes midnight
(`datetime.combine(d, datetime.min.time())`, naive), and a naive datetime
is stamped with `timezone.utc`. -/
def toAware : DtValue → PyDateTime
  | .date y m d =>
      { year := y, month := m, day := d, hour := 0, minute := 0, second := 0,
        microsecond := 0, tzOffset := some 0 }
  | .dateTime t =>
      if t.tzOffset = none then { t with tzOffset := some 0 } else t

/-- The dictionary appended to `future_events` for one kept event. -/
structure EventData where
  start : String
  end_ : Option String
  last_digits : Option Int
  url : Option String
  confirmation_code : Option String
deriving DecidableEq

/-- The configuration read from the environment by `get_future_events`
(`AIRBNB_CHECK_IN`, `AIRBNB_CHECK_OUT`, `AIRBNB_TZ`, `AIRBNB_MAX_START`).
The zone name is modelled as a fixed UTC offset in seconds. -/
structure GfeConfig where
  check_in_time : Option String
  check_out_time : Option String
  tz : Option Int
  max_start_days : Option String
deriving DecidableEq

/-- Model of Python `s.split(sep)` for a one-character separator: no
collapsing, so the result is never empty and `""` splits to `[""]`. -/
def splitCharList (sep : Char) : List Char → List (List Char)
  | [] => [[]]
  | c :: t =>
    match splitCharList sep t with
    | [] => [[]]
    | h :: r => if c = sep then [] :: h :: r else (c :: h) :: r

/-- `check_in_time.split(':')`. -/
def pySplitColon (s : String) : List String :=
  (splitCharList ':' s.data).map String.mk

/-- Lines 81-84 / 89-92: `s.split(':')`, `int` of field 0, fields 1 and 2
defaulting to 0; a failed `int` is the raised `ValueError`. -/
def parseOverride (s : String) : Except PassErr (Int × Int × Int) :=
  let parts := pySplitColon s
  match pyInt? (parts.getD 0 "") with
  | none => .error .valueError
  | some h =>
    match (if parts.length > 1 then pyInt? (parts.getD 1 "") else some 0) with
    | none => .error .valueError
    | some m =>
      match (if parts.length > 2 then pyInt? (parts.getD 2 "") else some 0) with
      | none => .error .valueError
      | some sec => .ok (h, m, sec)

/-- Apply one check-in/check-out override to an instant (lines 79-93). -/
def overrideApply (ov : Option String) (t : PyDateTime) : Except PassErr PyDateTime :=
  match ov with
  | none => .ok t
  | some s =>
    match parseOverride s with
    | .error e => .error e
    | .ok hms => replaceTime t hms.1 hms.2.1 hms.2.2

/-- Lines 95-105: only when a zone is configured, reinterpret a naive or
UTC instant as wall-clock time in that zone, then convert to UTC.  With no
configured zone the instant is left untouched. -/
def tzNormalize (tzcfg : Option Int) (t : PyDateTime) : PyDateTime :=
  match tzcfg with
  | none => t
  | some off =>
    let t2 := if t.tzOffset = none ∨ t.tzOffset = some 0
      then { t with tzOffset := some off } else t
    astimezoneUtc t2

/-- The body of the `for component in calendar.walk()` loop for a single
component: `ok none` models `continue`, `ok (some e)` models appending
`event_data`, `error` models an uncaught `ValueError`. -/
def processComponent (cfg : GfeConfig) (now : PyDateTime)
    (maxStart : Option PyDateTime) (c : Component) :
    Except PassErr (Option EventData) :=
  if c.name = "VEVENT" then
    if c.summary.getD "" = "Reserved" then
      match c.dtstart with
      | none => .ok none
      | some ds =>
        let event_start := toAware ds
        match c.dtend with
        | none => .ok none
        | some de =>
          let event_end := toAware de
          if instantMicro event_end > instantMicro now then
            match overrideApply cfg.check_in_time event_start with
            | .error e => .error e
            | .ok s1 =>
              match overrideApply cfg.check_out_time event_end with
              | .error e => .error e
              | .ok e1 =>
                let s2 := tzNormalize cfg.tz s1
                let e2 := tzNormalize cfg.tz e1
                if (match maxStart with
                    | none => false
                    | some ms => decide (instantMicro s2 > instantMicro ms)) then
                  .ok none
                else
                  let desc := (c.description.getD "").data
                  .ok (some
                    { start := isoformat s2,
                      end_ := some (isoformat e2),
                      last_digits := (searchDigits desc).map digitsToInt,
                      url := (searchUrl desc).map urlString,
                      confirmation_code := (searchUrl desc).map String.mk })
          else .ok none
    else .ok none
  else .ok none

/-- The event loop: sequential processing, first uncaught error aborts. -/
def collectEvents (cfg : GfeConfig) (now : PyDateTime)
    (maxStart : Option PyDateTime) : List Component → Except PassErr (List EventData)
  | [] => .ok []
  | c :: rest =>
    match processComponent cfg now maxStart c with
    | .error e => .error e
    | .ok none => collectEvents cfg now maxStart rest
    | .ok (some e) =>
      match collectEvents cfg now maxStart rest with
      | .error er => .error er
      | .ok l => .ok (e :: l)

/-- Lexicographic code-point comparison of character lists: exactly the
`<=` Python uses on `str`. -/
def charListLe : List Char → List Char → Bool
  | [], _ => true
  | _ :: _, [] => false
  | a :: as, b :: bs =>
    if a < b then true else if b < a then false else charListLe as bs

/-- The sort key relation of line 139: compare the ISO `start` strings. -/
def startLe (a b : EventData) : Prop :=
  charListLe a.start.data b.start.data = true

instance : DecidableRel startLe :=
  fun a b => inferInstanceAs (Decidable (charListLe a.start.data b.start.data = true))

/-- Line 139: `future_events.sort(key=lambda x: x['start'])` — Python's
stable sort on the ISO string key. -/
def sortEvents (l : List EventData) : List EventData :=
  List.insertionSort startLe l

/-- Lines 38-40: `max_start_date = now + timedelta(days=int(max_start_days))`
when configured; the `int` parse can raise. -/
def maxStartOf (cfg : GfeConfig) (now : PyDateTime) :
    Except PassErr (Option PyDateTime) :=
  match cfg.max_start_days with
  | none => .ok none
  | some s =>
    match pyInt? s with
    | none => .error .valueError
    | some n => .ok (some (addDays now n))

/-- `get_future_events` (airbnb_ical.py lines 15-141).  `fetched = none`
models a `requests.RequestException` (source unreachable or non-success
HTTP status): the code catches it and returns the empty list. -/
def get_future_events (fetched : Option (List Component)) (cfg : GfeConfig)
    (now : PyDateTime) : Except PassErr (List EventData) :=
  match fetched with
  | none => .ok []
  | some comps =>
    match maxStartOf cfg now with
    | .error e => .error e
    | .ok maxStart =>
      match collectEvents cfg now maxStart comps with
      | .error e => .error e
      | .ok evs => .ok (sortEvents evs)

/-! ## `datetime.fromisoformat` model and `normalize_datetime` (main.py 19-28) -/

/-- Read exactly `k` digit characters as a number. -/
def readFixedNat (k : Nat) (l : List Char) : Option (Nat × List Char) :=
  let ds := l.take k
  if ds.length = k && ds.all isDigitChar then some (digitsVal ds, l.drop k)
  else none

def expectChar (c : Char) : List Char → Option (List Char)
  | [] => none
  | x :: t => if x = c then some t else none

/-- Optional `:SS` part. -/
def readSeconds (l : List Char) : Option (Nat × List Char) :=
  match l with
  | ':' :: t =>
    match readFixedNat 2 t with
    | none => none
    | some (s, t2) => some (s, t2)
  | _ => some (0, l)

/-- Optional fractional part `.f{1,6}`, scaled to microseconds. -/
def readFrac (l : List Char) : Option (Nat × List Char) :=
  match l with
  | '.' :: t =>
    let ds := t.takeWhile isDigitChar
    if ds.length = 0 || ds.length > 6 then none
    else some (digitsVal ds * 10 ^ (6 - ds.length), t.drop ds.length)
  | _ => some (0, l)

/-- Optional UTC offset `±HH:MM[:SS]`; `none` in the pair means naive. -/
def readOffset (l : List Char) : Option (Option Int) :=
  match l with
  | [] => some none
  | c :: t =>
    if c = '+' || c = '-' then
      match readFixedNat 2 t with
      | none => none
      | some (oh, t2) =>
        match expectChar ':' t2 with
        | none => none
        | some t3 =>
          match readFixedNat 2 t3 with
          | none => none
          | some (om, t4) =>
            match t4 with
            | [] =>
              let mag : Int := oh * 3600 + om * 60
              some (some (if c = '-' then -mag else mag))
            | _ => none
    else none

/-- Model of `datetime.fromisoformat` for the shapes this system produces:
`YYYY-MM-DD[THH:MM[:SS[.ffffff]]][±HH:MM]`; `none` models the raised
`ValueError`. -/
def fromisoformat (s : String) : Option PyDateTime :=
  match readFixedNat 4 s.data with
  | none => none
  | some (y, l1) =>
    match expectChar '-' l1 with
    | none => none
    | some l2 =>
      match readFixedNat 2 l2 with
      | none => none
      | some (mo, l3) =>
        match expectChar '-' l3 with
        | none => none
        | some l4 =>
          match readFixedNat 2 l4 with
          | none => none
          | some (d, l5) =>
            if mo < 1 || mo > 12 || d < 1 || d > 31 then none
            else
              match l5 with
              | [] => some ⟨y, mo, d, 0, 0, 0, 0, none⟩
              | c :: l6 =>
                if c = 'T' || c = ' ' then
                  match readFixedNat 2 l6 with
                  | none => none
                  | some (h, l7) =>
                    match expectChar ':' l7 with
                    | none => none
                    | some l8 =>
                      match readFixedNat 2 l8 with
                      | none => none
                      | some (mi, l9) =>
                        match readSeconds l9 with
                        | none => none
                        | some (sec, l10) =>
                          match readFrac l10 with
                          | none => none
                          | some (mic, l11) =>
                            match readOffset l11 with
                            | none => none
                            | some off =>
                              if h > 23 || mi > 59 || sec > 59 then none
                              else some ⟨y, mo, d, h, mi, sec, mic, off⟩
                else none

/-- Model of `dt_str.replace('Z', '+00:00')`: every occurrence of the
one-character pattern is rewritten, scanning left to right. -/
def replaceZchars : List Char → List Char
  | [] => []
  | c :: t =>
    if c = 'Z' then '+' :: '0' :: '0' :: ':' :: '0' :: '0' :: replaceZchars t
    else c :: replaceZchars t

def replaceZ (s : String) : String := String.mk (replaceZchars s.data)

/-- `normalize_datetime` inside `check_code` (main.py lines 19-28): falsy
input gives `None`; otherwise `Z` is rewritten to `+00:00`, the string is
parsed, microseconds are cleared and the value re-rendered; on a parse
failure the original string is returned unchanged. -/
def normalize_datetime (dt : Option String) : Option String :=
  match dt with
  | none => none
  | some s =>
    if s = "" then none
    else
      let s2 := replaceZ s
      match fromisoformat s2 with
      | some t => some (isoformat { t with microsecond := 0 })
      | none => some s

/-! ## Reconciliation pass (main.py) -/

/-- One programmed access code as returned by the lock snapshot. -/
structure AccessCode where
  name : String
  code : String
  starts_at : Option String
  ends_at : Option String
deriving DecidableEq

/-- `check_code(reservation, access_code, check_times)` (main.py 8-47):
`ok true` means the code matches (the NoOp outcome), `ok false` a
discrepancy, `error` the `ValueError` from `int(access_code['code'])`. -/
def check_code (r : EventData) (ac : AccessCode) (check_times : Bool) :
    Except PassErr Bool :=
  match pyInt? ac.code with
  | none => .error .valueError
  | some n =>
    if r.last_digits ≠ some n then .ok false
    else if check_times then
      if normalize_datetime (some r.start) ≠ normalize_datetime ac.starts_at then
        .ok false
      else if normalize_datetime r.end_ ≠ normalize_datetime ac.ends_at then
        .ok false
      else .ok true
    else .ok true

/-- The PIN string `str(reservation['last_digits'])` passed to
`lock.create_access_code` / `lock.update_access_code`
(main.py lines 83 and 133). -/
def createPin (r : EventData) : String := pyStr r.last_digits

/-- The reconciliation outcomes of one pass (spec section 3):
`create`/`update`/`delete` model the calls to `create_code`/`update_code`/
`delete_code`; `noop` models the "code already correct" outcome. -/
inductive SyncAction
  | create (r : EventData)
  | update (r : EventData) (ac : AccessCode)
  | noop (r : EventData) (ac : AccessCode)
  | delete (ac : AccessCode)
deriving DecidableEq

def SyncAction.isCreateFlag : SyncAction → Bool
  | .create _ => true
  | _ => false

def SyncAction.isDeleteFlag : SyncAction → Bool
  | .delete _ => true
  | _ => false

/-! Python `dict` model: an association list in insertion order; inserting
an existing key overwrites the value in place, a new key goes to the end. -/

def alLookup (k : String) : List (String × α) → Option α
  | [] => none
  | (k2, v) :: t => if k = k2 then some v else alLookup k t

def dictInsert (k : String) (v : α) : List (String × α) → List (String × α)
  | [] => [(k, v)]
  | (k2, v2) :: t =>
    if k2 = k then (k2, v) :: t else (k2, v2) :: dictInsert k v t

def buildDict (l : List (String × α)) : List (String × α) :=
  l.foldl (fun d p => dictInsert p.1 p.2 d) []

/-- The value of the last pair carrying key `k`, if any. -/
def findLastVal (k : String) : List (String × α) → Option α
  | [] => none
  | (k2, v) :: t =>
    match findLastVal k t with
    | some w => some w
    | none => if k = k2 then some v else none

/-- `{str(res['confirmation_code']): res for res in current_reservations
if res['confirmation_code']}` — the comprehension's per-item contribution:
`None` and the empty string are falsy and filtered out. -/
def confPair (r : EventData) : Option (String × EventData) :=
  match r.confirmation_code with
  | none => none
  | some s => if s = "" then none else some (s, r)

/-- `reservation_codes` (main.py line 169). -/
def resItems (ress : List EventData) : List (String × EventData) :=
  buildDict (ress.filterMap confPair)

/-- `lock_codes` (main.py line 170). -/
def lockItems (codes : List AccessCode) : List (String × AccessCode) :=
  buildDict (codes.map (fun ac => (ac.name, ac)))

/-- The `for code, reservation in reservation_codes.items()` loop
(main.py 171-179).  The `Bool` result records whether `sys.exit(0)` ran
(the halt after `create_code`). -/
def processRes (lc : List (String × AccessCode)) (ct : Bool) :
    List (String × EventData) → Except PassErr (List SyncAction × Bool)
  | [] => .ok ([], false)
  | (k, r) :: rest =>
    match alLookup k lc with
    | none => .ok ([.create r], true)
    | some ac =>
      match check_code r ac ct with
      | .error e => .error e
      | .ok b =>
        match processRes lc ct rest with
        | .error e => .error e
        | .ok (acts, h) =>
          .ok ((if b then SyncAction.noop r ac else SyncAction.update r ac) :: acts, h)

/-- The whole `__main__` reconciliation (main.py 169-185): the reservation
loop, then — only if it never halted — the delete loop over access-code
names with no matching reservation key. -/
def runPass (ress : List EventData) (codes : List AccessCode) (ct : Bool) :
    Except PassErr (List SyncAction) :=
  let rc := resItems ress
  let lc := lockItems codes
  match processRes lc ct rc with
  | .error e => .error e
  | .ok (acts, halted) =>
    if halted then .ok acts
    else .ok (acts ++ lc.filterMap
        (fun p => if (alLookup p.1 rc).isNone then some (SyncAction.delete p.2) else none))

/-! ## Concrete fixtures used by the verification theorems -/

/-- Empty configuration: no overrides, no zone, no horizon. -/
def cfg0 : GfeConfig := ⟨none, none, none, none⟩

/-- A reference `now`: 2025-01-01T00:00:00Z. -/
def nowC : PyDateTime := ⟨2025, 1, 1, 0, 0, 0, 0, some 0⟩

/-- Event start/end carried in a +03:00 zone. -/
def dtA : PyDateTime := ⟨2025, 6, 1, 12, 0, 0, 0, some 10800⟩

def dtAEnd : PyDateTime := ⟨2025, 6, 5, 12, 0, 0, 0, some 10800⟩

/-- Event start/end carried in UTC. -/
def dtB : PyDateTime := ⟨2025, 6, 1, 10, 0, 0, 0, some 0⟩

def dtBEnd : PyDateTime := ⟨2025, 6, 5, 10, 0, 0, 0, some 0⟩

def compA : Component :=
  ⟨"VEVENT", some "Reserved", some (.dateTime dtA), some (.dateTime dtAEnd), none⟩

def compB : Component :=
  ⟨"VEVENT", some "Reserved", some (.dateTime dtB), some (.dateTime dtBEnd), none⟩

def evA : EventData :=
  ⟨"2025-06-01T12:00:00+03:00", some "2025-06-05T12:00:00+03:00", none, none, none⟩

def evB : EventData :=
  ⟨"2025-06-01T10:00:00+00:00", some "2025-06-05T10:00:00+00:00", none, none, none⟩

/-- Configuration with a check-out override of midnight. -/
def cfg8 : GfeConfig := ⟨none, some "00:00", none, none⟩

/-- `now` for the boundary scenario: 2025-06-01T10:00:00Z. -/
def now8 : PyDateTime := ⟨2025, 6, 1, 10, 0, 0, 0, some 0⟩

/-- An event whose raw end (11:00Z) is after `now8` but whose end after the
check-out override (midnight) is before `now8`. -/
def comp8 : Component :=
  ⟨"VEVENT", some "Reserved", some (.dateTime ⟨2025, 5, 30, 14, 0, 0, 0, some 0⟩),
    some (.dateTime ⟨2025, 6, 1, 11, 0, 0, 0, some 0⟩), none⟩

/-- The normalized end instant the override produces for `comp8`. -/
def dt8End : PyDateTime := ⟨2025, 6, 1, 0, 0, 0, 0, some 0⟩

def ev8 : EventData :=
  ⟨"2025-05-30T14:00:00+00:00", some "2025-06-01T00:00:00+00:00", none, none, none⟩

/-- A description whose phone-digit capture has a leading zero. -/
def desc4 : String :=
  "Reservation URL: https://www.airbnb.com/hosting/reservations/details/HMABCD1234 Phone Number (Last 4 Digits): 0123"

def comp4 : Component :=
  ⟨"VEVENT", some "Reserved", some (.date 2025 6 1), some (.date 2025 6 5), some desc4⟩

def ev4 : EventData :=
  ⟨"2025-06-01T00:00:00+00:00", some "2025-06-05T00:00:00+00:00", some 123,
    some "https://www.airbnb.com/hosting/reservations/details/HMABCD1234",
    some "HMABCD1234"⟩

/-- Configuration with a malformed check-in override. -/
def cfg7 : GfeConfig := ⟨some "xx:yy", none, none, none⟩

/-- A calendar event that is not a reservation (summary fails the
`"Reserved"` allow-list), so the override string is never parsed. -/
def compBlocked : Component :=
  ⟨"VEVENT", some "Airbnb (Not available)", some (.date 2025 6 1),
    some (.date 2025 6 5), none⟩

/-- An access code on the lock with no matching reservation. -/
def acZ : AccessCode := ⟨"ZZZ999", "1234", none, none⟩

/-- A kept reservation with a confirmation code but no extracted guest
code (`last_digits` is `None`). -/
def r3 : EventData :=
  ⟨"2025-06-01T00:00:00+00:00", some "2025-06-05T00:00:00+00:00", none, none,
    some "ABC123"⟩

/-- Two reservations sharing one confirmation code, in start order, and an
access code matching the later one's digits. -/
def rD1 : EventData :=
  ⟨"2025-06-01T00:00:00+00:00", some "2025-06-03T00:00:00+00:00", some 1111, none,
    some "DUP222"⟩

def rD2 : EventData :=
  ⟨"2025-06-07T00:00:00+00:00", some "2025-06-09T00:00:00+00:00", some 2222, none,
    some "DUP222"⟩

def acD : AccessCode := ⟨"DUP222", "2222", none, none⟩

/-- A calendar holding two `Reserved` events that carry the same
confirmation code. -/
def descD : String :=
  "https://www.airbnb.com/hosting/reservations/details/DUP222 Phone Number (Last 4 Digits): 1111"

def descD2 : String :=
  "https://www.airbnb.com/hosting/reservations/details/DUP222 Phone Number (Last 4 Digits): 2222"

def compD1 : Component :=
  ⟨"VEVENT", some "Reserved", some (.date 2025 6 1), some (.date 2025 6 3), some descD⟩

def compD2 : Component :=
  ⟨"VEVENT", some "Reserved", some (.date 2025 6 7), some (.date 2025 6 9), some descD2⟩

def evD1 : EventData :=
  ⟨"2025-06-01T00:00:00+00:00", some "2025-06-03T00:00:00+00:00", some 1111,
    some "https://www.airbnb.com/hosting/reservations/details/DUP222", some "DUP222"⟩

def evD2 : EventData :=
  ⟨"2025-06-07T00:00:00+00:00", some "2025-06-09T00:00:00+00:00", some 2222,
    some "https://www.airbnb.com/hosting/reservations/details/DUP222", some "DUP222"⟩

/-- A reservation with confirmation code and guest code, and the access
code its `Create` action programs (name = confirmation code, PIN =
`str(last_digits)`, window = the reservation's start/end strings). -/
def r9 : EventData :=
  ⟨"2025-06-01T00:00:00+00:00", some "2025-06-05T00:00:00+00:00", some 4567, none,
    some "ABC123"⟩

def ac9 : AccessCode :=
  ⟨"ABC123", "4567", some "2025-06-01T00:00:00+00:00",
    some "2025-06-05T00:00:00+00:00"⟩

/-- An event whose end is exactly one second after `now8`. -/
def compBoundary : Component :=
  ⟨"VEVENT", some "Reserved", some (.dateTime ⟨2025, 5, 30, 14, 0, 0, 0, some 0⟩),
    some (.dateTime ⟨2025, 6, 1, 10, 0, 1, 0, some 0⟩), none⟩

/-! ## Helper lemmas -/

theorem digitChar_is_digit {m : Nat} (h : m < 10) :
    isDigitChar (Nat.digitChar m) = true ∧ charVal (Nat.digitChar m) = m := by
  interval_cases m <;> exact ⟨by decide, by decide⟩

theorem digitsVal_append_singleton (xs : List Char) (c : Char) :
    digitsVal (xs ++ [c]) = digitsVal xs * 10 + charVal c := by
  simp [digitsVal, List.foldl_append]

theorem digitsRevFuel_spec :
    ∀ fuel n, n < fuel →
      digitsRevFuel fuel n ≠ [] ∧
      (digitsRevFuel fuel n).all isDigitChar = true ∧
      digitsVal (digitsRevFuel fuel n).reverse = n := by
  intro fuel
  induction fuel with
  | zero => intro n h; omega
  | succ fuel ih =>
    intro n h
    by_cases h10 : n < 10
    · refine ⟨by simp [digitsRevFuel, h10], ?_, ?_⟩
      · simp [digitsRevFuel, h10, (digitChar_is_digit h10).1]
      · simp [digitsRevFuel, h10, digitsVal, (digitChar_is_digit h10).2]
    · have hdiv : n / 10 < n := Nat.div_lt_self (by omega) (by omega)
      have hfuel : n / 10 < fuel := by omega
      obtain ⟨ihne, ihall, ihval⟩ := ih (n / 10) hfuel
      have hmod : n % 10 < 10 := Nat.mod_lt _ (by omega)
      refine ⟨by simp [digitsRevFuel, h10], ?_, ?_⟩
      · simp [digitsRevFuel, h10, (digitChar_is_digit hmod).1, ihall]
      · simp only [digitsRevFuel, if_neg h10, List.reverse_cons,
          digitsVal_append_singleton, ihval, (digitChar_is_digit hmod).2]
        omega

theorem isDigitChar_not_space {c : Char} (h : isDigitChar c = true) :
    isPySpace c = false := by
  by_contra hc
  have hs : isPySpace c = true := by
    cases hp : isPySpace c
    · exact absurd hp hc
    · rfl
  simp only [isPySpace, Bool.or_eq_true, decide_eq_true_eq] at hs
  rcases hs with ((((rfl | rfl) | rfl) | rfl) | rfl) | rfl <;> simp [isDigitChar] at h

theorem pyTrim_digits {l : List Char} (hne : l ≠ []) (hall : l.all isDigitChar = true) :
    pyTrim l = l := by
  have hstep : ∀ (m : List Char), m ≠ [] → m.all isDigitChar = true →
      m.dropWhile isPySpace = m := by
    intro m hm hallm
    cases m with
    | nil => exact absurd rfl hm
    | cons a t =>
      have ha : isDigitChar a = true := by
        have := List.all_eq_true.mp hallm a (by simp)
        exact this
      simp [List.dropWhile, isDigitChar_not_space ha]
  unfold pyTrim
  rw [hstep l hne hall]
  have hrev_ne : l.reverse ≠ [] := by
    intro hc
    exact hne (by simpa using congrArg List.reverse hc)
  have hrev_all : l.reverse.all isDigitChar = true := by
    simpa using hall
  rw [hstep l.reverse hrev_ne hrev_all, List.reverse_reverse]

theorem pyInt_natRepr (n : Nat) : pyInt? (natRepr n) = some (n : Int) := by
  obtain ⟨hne, hall, hval⟩ := digitsRevFuel_spec (n + 1) n (by omega)
  have hdata : (natRepr n).data = (digitsRev n).reverse := rfl
  have hrevne : (digitsRev n).reverse ≠ [] := by
    intro hc
    exact hne (by simpa using congrArg List.reverse hc)
  have hrevall : (digitsRev n).reverse.all isDigitChar = true := by
    simpa [digitsRev] using hall
  unfold pyInt?
  rw [hdata, pyTrim_digits hrevne hrevall]
  cases hc : (digitsRev n).reverse with
  | nil => exact absurd hc hrevne
  | cons b u =>
    have hb : isDigitChar b = true := by
      have := List.all_eq_true.mp (hc ▸ hrevall) b (by simp)
      exact this
    have hbm : b ≠ '-' := by rintro rfl; simp [isDigitChar] at hb
    have hbp : b ≠ '+' := by rintro rfl; simp [isDigitChar] at hb
    simp only [pyIntCore, if_neg hbm, if_neg hbp]
    have hvals : digitsVal (b :: u) = n := by
      rw [← hc]
      simpa [digitsRev] using hval
    simp [digitsOnly, hc ▸ hrevall, hvals]

theorem pyInt_pyStr_nat (d : Nat) : pyInt? (pyStr (some (d : Int))) = some (d : Int) := by
  have : pyStr (some (d : Int)) = natRepr d := by
    simp [pyStr, intRepr]
  rw [this, pyInt_natRepr]


theorem charListLe_total : ∀ x y : List Char, charListLe x y = true ∨ charListLe y x = true := by
  intro x
  induction x with
  | nil => intro y; left; rfl
  | cons a as ih =>
    intro y
    cases y with
    | nil => right; rfl
    | cons b bs =>
      rcases lt_trichotomy a b with h | h | h
      · left; simp [charListLe, h]
      · subst h
        rcases ih bs with h2 | h2
        · left; simp [charListLe, lt_irrefl, h2]
        · right; simp [charListLe, lt_irrefl, h2]
      · right; simp [charListLe, h]

theorem charListLe_trans :
    ∀ x y z : List Char, charListLe x y = true → charListLe y z = true →
      charListLe x z = true := by
  intro x
  induction x with
  | nil => intro y z _ _; rfl
  | cons a as ih =>
    intro y z h1 h2
    cases y with
    | nil => simp [charListLe] at h1
    | cons b bs =>
      cases z with
      | nil => simp [charListLe] at h2
      | cons c cs =>
        rcases lt_trichotomy a b with hab | hab | hab
        · rcases lt_trichotomy b c with hbc | hbc | hbc
          · simp [charListLe, lt_trans hab hbc]
          · subst hbc; simp [charListLe, hab]
          · simp [charListLe, asymm hbc, hbc] at h2
        · subst hab
          rcases lt_trichotomy a c with hac | hac | hac
          · simp [charListLe, hac]
          · subst hac
            simp only [charListLe, if_neg (lt_irrefl a)] at h1 h2 ⊢
            exact ih _ _ h1 h2
          · simp [charListLe, asymm hac, hac] at h2
        · simp [charListLe, asymm hab, hab] at h1


theorem processRes_append_ok {lc : List (String × AccessCode)} {ct : Bool}
    {l2 : List (String × EventData)} {a2 : List SyncAction} {h2 : Bool}
    (hl2 : processRes lc ct l2 = .ok (a2, h2)) :
    ∀ {l1 : List (String × EventData)} {a1 : List SyncAction},
      processRes lc ct l1 = .ok (a1, false) →
      processRes lc ct (l1 ++ l2) = .ok (a1 ++ a2, h2) := by
  intro l1
  induction l1 with
  | nil =>
    intro a1 hl1
    simp only [processRes, Except.ok.injEq, Prod.mk.injEq] at hl1
    obtain ⟨ha, -⟩ := hl1
    subst ha
    simpa using hl2
  | cons p t ih =>
    intro a1 hl1
    obtain ⟨k, r⟩ := p
    cases hlk : alLookup k lc with
    | none =>
      simp only [processRes, hlk, Except.ok.injEq, Prod.mk.injEq] at hl1
      exact absurd hl1.2 (by simp)
    | some ac =>
      cases hcc : check_code r ac ct with
      | error e =>
        simp only [processRes, hlk, hcc] at hl1
        cases hl1
      | ok b =>
        cases hpr : processRes lc ct t with
        | error e =>
          simp only [processRes, hlk, hcc, hpr] at hl1
          cases hl1
        | ok p2 =>
          obtain ⟨acts, hh⟩ := p2
          simp only [processRes, hlk, hcc, hpr, Except.ok.injEq, Prod.mk.injEq] at hl1
          obtain ⟨ha, hb⟩ := hl1
          subst hb
          simp only [List.cons_append, processRes, hlk, hcc, ih hpr, Except.ok.injEq,
            Prod.mk.injEq, ← ha, List.append_eq]

theorem processRes_ok_false_kinds {lc : List (String × AccessCode)} {ct : Bool} :
    ∀ {l : List (String × EventData)} {acts : List SyncAction},
      processRes lc ct l = .ok (acts, false) →
      ∀ a ∈ acts, a.isCreateFlag = false ∧ a.isDeleteFlag = false := by
  intro l
  induction l with
  | nil =>
    intro acts h
    simp only [processRes, Except.ok.injEq, Prod.mk.injEq] at h
    obtain ⟨ha, -⟩ := h
    subst ha
    intro a hmem
    simp at hmem
  | cons p t ih =>
    intro acts h
    obtain ⟨k, r⟩ := p
    cases hlk : alLookup k lc with
    | none =>
      simp only [processRes, hlk, Except.ok.injEq, Prod.mk.injEq] at h
      exact absurd h.2 (by simp)
    | some ac =>
      cases hcc : check_code r ac ct with
      | error e =>
        simp only [processRes, hlk, hcc] at h
        cases h
      | ok b =>
        cases hpr : processRes lc ct t with
        | error e =>
          simp only [processRes, hlk, hcc, hpr] at h
          cases h
        | ok p2 =>
          obtain ⟨acts2, hh⟩ := p2
          simp only [processRes, hlk, hcc, hpr, Except.ok.injEq, Prod.mk.injEq] at h
          obtain ⟨ha, hb⟩ := h
          subst hb
          intro a hmem
          rw [← ha] at hmem
          rcases List.mem_cons.mp hmem with rfl | hmem2
          · cases b <;> exact ⟨rfl, rfl⟩
          · exact ih hpr a hmem2


theorem alLookup_dictInsert {α : Type} (k k2 : String) (v : α) (d : List (String × α)) :
    alLookup k (dictInsert k2 v d) = if k = k2 then some v else alLookup k d := by
  induction d with
  | nil => simp [dictInsert, alLookup]
  | cons p t ih =>
    obtain ⟨k3, w⟩ := p
    by_cases h32 : k3 = k2
    · subst h32
      simp only [dictInsert, if_pos rfl, alLookup]
      by_cases hk : k = k3 <;> simp [hk]
    · simp only [dictInsert, if_neg h32, alLookup]
      by_cases hk : k = k3
      · subst hk
        simp [h32]
      · simp [hk, ih]

theorem findLastVal_append_singleton {α : Type} (k : String) (l : List (String × α))
    (k2 : String) (v : α) :
    findLastVal k (l ++ [(k2, v)]) = if k = k2 then some v else findLastVal k l := by
  induction l with
  | nil => simp [findLastVal]
  | cons p t ih =>
    obtain ⟨k3, w⟩ := p
    simp only [List.cons_append, findLastVal, List.append_eq, ih]
    by_cases hk : k = k2
    · simp [hk]
    · simp [hk]

theorem alLookup_buildDict {α : Type} (k : String) (l : List (String × α)) :
    alLookup k (buildDict l) = findLastVal k l := by
  induction l using List.reverseRecOn with
  | nil => rfl
  | append_singleton l p ih =>
    obtain ⟨k2, v⟩ := p
    rw [show buildDict (l ++ [(k2, v)]) = dictInsert k2 v (buildDict l) by
      simp [buildDict, List.foldl_append]]
    rw [alLookup_dictInsert, findLastVal_append_singleton, ih]

/-! ## Claim theorems -/

/-- Claim C1.  The claim says a failed calendar fetch aborts the pass and
never yields Delete actions.  The code violates this: `get_future_events`
catches the fetch exception and returns the empty list, and the pass then
reaches the delete phase and deletes every existing access code.  This
theorem evaluates the code at the failing input: a fetch failure (`none`)
yields `ok []`, and reconciling an empty reservation list against a lock
holding one access code emits a Delete for it. -/
theorem c1_fetch_failure_produces_delete :
    get_future_events none cfg0 nowC = .ok [] ∧
    runPass [] [acZ] false = .ok [SyncAction.delete acZ] :=
  ⟨rfl, rfl⟩

/-- Claim C2 (confirmed).  When the in-order processing of the reservation
dictionary reaches a key `k` with no access code of that name — every
earlier item having been matched without error and without halting — the
pass output is exactly the earlier actions followed by one Create for `k`:
nothing from the remaining reservations is processed, the earlier actions
contain no Create and no Delete, and the delete phase is never reached. -/
theorem c2_create_halts_pass (ress : List EventData) (codes : List AccessCode)
    (ct : Bool) (pre rest : List (String × EventData)) (k : String) (r : EventData)
    (acts : List SyncAction)
    (hsplit : resItems ress = pre ++ (k, r) :: rest)
    (hpre : processRes (lockItems codes) ct pre = .ok (acts, false))
    (hmiss : alLookup k (lockItems codes) = none) :
    runPass ress codes ct = .ok (acts ++ [SyncAction.create r]) ∧
    ∀ a ∈ acts, a.isCreateFlag = false ∧ a.isDeleteFlag = false := by
  have htail : processRes (lockItems codes) ct ((k, r) :: rest)
      = .ok ([SyncAction.create r], true) := by
    simp [processRes, hmiss]
  have hfull := processRes_append_ok htail hpre
  constructor
  · simp only [runPass, hsplit, hfull, if_true]
  · exact processRes_ok_false_kinds hpre

/-- Witness for C2 at a concrete input: one reservation, empty lock. -/
theorem c2_create_halts_pass_witness :
    runPass [r3] [] false = .ok ([] ++ [SyncAction.create r3]) ∧
    ∀ a ∈ ([] : List SyncAction), a.isCreateFlag = false ∧ a.isDeleteFlag = false :=
  c2_create_halts_pass [r3] [] false [] [] "ABC123" r3 [] rfl rfl rfl

/-- Counterexample to claim C3.  A kept reservation that has a confirmation
code but lacks a guest code (`last_digits = None`) is NOT excluded from
reconciliation: the pass emits a Create action for it. -/
theorem c3_missing_guest_code_not_excluded :
    r3.confirmation_code = some "ABC123" ∧ r3.last_digits = none ∧
    runPass [r3] [acZ] false = .ok [SyncAction.create r3] :=
  ⟨rfl, rfl, rfl⟩

/-- Claim C3 as amended: only a reservation whose confirmation code is
absent (or empty) is excluded from reconciliation — removing it from the
input list leaves the whole pass output unchanged, so no action is emitted
for it and no exception arises from it.  A reservation lacking only the
guest code participates normally (see the counterexample). -/
theorem c3_missing_confirmation_excluded (r : EventData)
    (h : r.confirmation_code = none ∨ r.confirmation_code = some "") :
    ∀ (l1 l2 : List EventData) (codes : List AccessCode) (ct : Bool),
      runPass (l1 ++ r :: l2) codes ct = runPass (l1 ++ l2) codes ct := by
  have hcp : confPair r = none := by
    rcases h with h | h <;> simp [confPair, h]
  intro l1 l2 codes ct
  have hri : resItems (l1 ++ r :: l2) = resItems (l1 ++ l2) := by
    simp [resItems, List.filterMap_append, List.filterMap_cons, hcp]
  simp only [runPass, hri]

/-- Witness for the amended C3 at a concrete input. -/
theorem c3_missing_confirmation_excluded_witness :
    runPass ([] ++ evB :: []) [acZ] false = runPass ([] ++ []) [acZ] false :=
  c3_missing_confirmation_excluded evB (Or.inl rfl) [] [] [acZ] false

/-- Claim C4.  The claim says the guest code keeps its leading zeros and
the PIN passed to create/update equals the four captured characters.  The
code stores `int(digits)` and later renders it with `str`, so for the
captured digits `"0123"` the extracted value is the integer `123` and the
PIN string passed to the lock is `"123"`, not `"0123"`. -/
theorem c4_leading_zero_pin_dropped :
    get_future_events (some [comp4]) cfg0 nowC = .ok [ev4] ∧
    searchDigits desc4.data = some ['0', '1', '2', '3'] ∧
    ev4.last_digits = some 123 ∧
    createPin ev4 = "123" ∧
    "123" ≠ "0123" :=
  ⟨rfl, rfl, rfl, rfl, by decide⟩

/-- Counterexample to claim C5.  With no source zone configured, an event
carried in a +03:00 zone is emitted with its start still expressed in that
zone: the output string is the +03:00 rendering, which differs from the
UTC rendering of the same instant. -/
theorem c5_no_tz_output_not_utc :
    get_future_events (some [compA]) cfg0 nowC = .ok [evA] ∧
    evA.start = isoformat dtA ∧
    dtA.tzOffset = some 10800 ∧
    isoformat dtA ≠ isoformat (astimezoneUtc dtA) :=
  ⟨rfl, rfl, rfl, by decide⟩

/-- Claim C5 as amended: when a source zone IS configured every normalized
instant is converted to UTC with microseconds preserved; when no zone is
configured the normalization step leaves the instant untouched (so a
non-UTC zone carried by the event survives into the output). -/
theorem c5_tz_normalization (off : Int) (t : PyDateTime) :
    (tzNormalize (some off) t).tzOffset = some 0 ∧
    (tzNormalize (some off) t).microsecond = t.microsecond ∧
    tzNormalize none t = t := by
  refine ⟨?_, ?_, rfl⟩
  · by_cases h : t.tzOffset = none ∨ t.tzOffset = some 0 <;>
      simp [tzNormalize, astimezoneUtc, fromEpochSeconds, h]
  · by_cases h : t.tzOffset = none ∨ t.tzOffset = some 0 <;>
      simp [tzNormalize, astimezoneUtc, fromEpochSeconds, h]

/-- Counterexample to claim C6.  With mixed UTC offsets in the output the
sort is not chronological: the returned order is `[evB, evA]`, yet the
start instant of `evA` (09:00Z, written as 12:00+03:00) is strictly before
the start instant of `evB` (10:00Z) — the list is ordered by string
comparison of the ISO texts, not by instant. -/
theorem c6_sort_not_chronological :
    get_future_events (some [compA, compB]) cfg0 nowC = .ok [evB, evA] ∧
    evB.start = isoformat dtB ∧ evA.start = isoformat dtA ∧
    instantMicro dtA < instantMicro dtB :=
  ⟨rfl, rfl, rfl, by decide⟩

/-- Claim C6 as amended: every successful result of `get_future_events` is
sorted by ascending lexicographic (code-point) order of the ISO `start`
strings — Python's `sort(key=lambda x: x['start'])`.  This coincides with
chronological order only when all entries carry one common offset. -/
theorem c6_output_sorted_by_start_string (fetched : Option (List Component))
    (cfg : GfeConfig) (now : PyDateTime) (l : List EventData)
    (h : get_future_events fetched cfg now = .ok l) :
    l.Sorted startLe := by
  haveI : IsTotal EventData startLe := ⟨fun a b => charListLe_total _ _⟩
  haveI : IsTrans EventData startLe := ⟨fun a b c => charListLe_trans _ _ _⟩
  cases fetched with
  | none =>
    simp only [get_future_events, Except.ok.injEq] at h
    subst h
    exact List.sorted_nil
  | some comps =>
    cases hms : maxStartOf cfg now with
    | error e =>
      simp only [get_future_events, hms] at h
      cases h
    | ok maxStart =>
      cases hce : collectEvents cfg now maxStart comps with
      | error e =>
        simp only [get_future_events, hms, hce] at h
        cases h
      | ok evs =>
        simp only [get_future_events, hms, hce, Except.ok.injEq] at h
        subst h
        exact List.sorted_insertionSort startLe evs

/-- Witness for the amended C6 at a concrete input. -/
theorem c6_output_sorted_by_start_string_witness : List.Sorted startLe [evA] :=
  c6_output_sorted_by_start_string (some [compA]) cfg0 nowC [evA] rfl

/-- Counterexample to claim C7.  With the malformed check-in override
`"xx:yy"` configured, a run over a fetched calendar containing no kept
event completes successfully — no `ConfigError`, no failure at all, so the
failure is not raised before network activity and does depend on which
events the calendar contains. -/
theorem c7_malformed_override_no_failure :
    cfg7.check_in_time = some "xx:yy" ∧
    parseOverride "xx:yy" = .error .valueError ∧
    get_future_events (some [compBlocked]) cfg7 nowC = .ok [] :=
  ⟨rfl, rfl, rfl⟩

/-- Claim C7 as amended: a malformed override string causes an uncaught
`ValueError` only while processing a kept future event, after the calendar
has been fetched; a calendar with no kept future events completes without
any error. -/
theorem c7_malformed_override_event_dependent (cfg : GfeConfig)
    (now : PyDateTime) (c : Component) (s : String) (dv dw : DtValue)
    (hci : cfg.check_in_time = some s)
    (hbad : parseOverride s = .error .valueError)
    (hmax : cfg.max_start_days = none)
    (hname : c.name = "VEVENT")
    (hsum : c.summary.getD "" = "Reserved")
    (hds : c.dtstart = some dv)
    (hde : c.dtend = some dw)
    (hfut : instantMicro (toAware dw) > instantMicro now) :
    get_future_events (some []) cfg now = .ok [] ∧
    get_future_events (some [c]) cfg now = .error .valueError := by
  have hms : maxStartOf cfg now = .ok none := by simp [maxStartOf, hmax]
  constructor
  · simp [get_future_events, hms, collectEvents, sortEvents, List.insertionSort]
  · have hpc : processComponent cfg now none c = .error .valueError := by
      simp [processComponent, hname, hsum, hds, hde, hfut, overrideApply, hci, hbad]
    simp [get_future_events, hms, collectEvents, hpc]

/-- Witness for the amended C7 at a concrete input. -/
theorem c7_malformed_override_event_dependent_witness :
    get_future_events (some []) cfg7 nowC = .ok [] ∧
    get_future_events (some [comp4]) cfg7 nowC = .error .valueError :=
  c7_malformed_override_event_dependent cfg7 nowC comp4 "xx:yy"
    (.date 2025 6 1) (.date 2025 6 5) rfl rfl rfl rfl rfl rfl rfl (by decide)

/-- Counterexample to claim C8.  The future filter runs on the raw end,
before the check-out override: an event whose raw end (11:00Z) is after
`now` (10:00Z) is kept even though its normalized end (midnight, after the
`"00:00"` override) is NOT strictly after `now` — so membership in the
output is not equivalent to the normalized end being after `now`. -/
theorem c8_filter_uses_raw_end :
    cfg8.check_out_time = some "00:00" ∧
    get_future_events (some [comp8]) cfg8 now8 = .ok [ev8] ∧
    ev8.end_ = some (isoformat dt8End) ∧
    instantMicro dt8End ≤ instantMicro now8 :=
  ⟨rfl, rfl, rfl, by decide⟩

/-- Claim C8 as amended: a kept `Reserved` event (with no overrides
configured and no start horizon) contributes an output record if and only
if its RAW end instant — date-expanded, naive treated as UTC, before any
normalization — is strictly after `now`.  The boundary behaviour (end
equal to `now` excluded, one second later included) therefore holds on the
raw end instant. -/
theorem c8_inclusion_iff_raw_end_future (cfg : GfeConfig) (now : PyDateTime)
    (c : Component) (dv dw : DtValue)
    (hname : c.name = "VEVENT") (hsum : c.summary.getD "" = "Reserved")
    (hds : c.dtstart = some dv) (hde : c.dtend = some dw)
    (hci : cfg.check_in_time = none) (hco : cfg.check_out_time = none) :
    (∃ e, processComponent cfg now none c = .ok (some e)) ↔
      instantMicro (toAware dw) > instantMicro now := by
  constructor
  · rintro ⟨e, he⟩
    by_contra hnot
    simp [processComponent, hname, hsum, hds, hde, hnot] at he
  · intro hfut
    refine ⟨⟨isoformat (tzNormalize cfg.tz (toAware dv)),
      some (isoformat (tzNormalize cfg.tz (toAware dw))),
      (searchDigits (c.description.getD "").data).map digitsToInt,
      (searchUrl (c.description.getD "").data).map urlString,
      (searchUrl (c.description.getD "").data).map String.mk⟩, ?_⟩
    simp [processComponent, hname, hsum, hds, hde, hfut, overrideApply, hci, hco]

/-- Witness for the amended C8: an event ending one second after `now8` is
included. -/
theorem c8_inclusion_iff_raw_end_future_witness :
    (∃ e, processComponent cfg0 now8 none compBoundary = .ok (some e)) ↔
      instantMicro (toAware (.dateTime ⟨2025, 6, 1, 10, 0, 1, 0, some 0⟩))
        > instantMicro now8 :=
  c8_inclusion_iff_raw_end_future cfg0 now8 compBoundary
    (.dateTime ⟨2025, 5, 30, 14, 0, 0, 0, some 0⟩)
    (.dateTime ⟨2025, 6, 1, 10, 0, 1, 0, some 0⟩) rfl rfl rfl rfl rfl rfl

/-- Claim C9 (confirmed).  For a reservation with a confirmation code and
a guest code, once the snapshot holds the access code its Create would
program — name equal to the confirmation code, stored PIN string equal to
the created PIN `str(last_digits)`, and validity window equal to the
reservation's start/end strings — reconciling again yields exactly one
NoOp for that key, whether or not time-checking is enabled. -/
theorem c9_create_roundtrip_noop (r : EventData) (ac : AccessCode) (k : String)
    (d : Nat) (ct : Bool)
    (hconf : r.confirmation_code = some k) (hk : k ≠ "")
    (hld : r.last_digits = some (d : Int))
    (hname : ac.name = k) (hcode : ac.code = createPin r)
    (hs : ac.starts_at = some r.start) (he : ac.ends_at = r.end_) :
    runPass [r] [ac] ct = .ok [SyncAction.noop r ac] := by
  have hri : resItems [r] = [(k, r)] := by
    simp [resItems, confPair, hconf, hk, buildDict, dictInsert]
  have hli : lockItems [ac] = [(k, ac)] := by
    simp [lockItems, hname, buildDict, dictInsert]
  have hpin : pyInt? ac.code = some (d : Int) := by
    rw [hcode]
    unfold createPin
    rw [hld]
    exact pyInt_pyStr_nat d
  have hcc : check_code r ac ct = .ok true := by
    simp only [check_code, hpin, hld, ne_eq, not_true_eq_false, if_false]
    cases ct
    · simp
    · simp [hs, he]
  have hal : alLookup k [(k, ac)] = some ac := by simp [alLookup]
  have hpr : processRes [(k, ac)] ct [(k, r)] = .ok ([SyncAction.noop r ac], false) := by
    simp [processRes, hal, hcc]
  simp only [runPass, hri, hli, hpr]
  simp [alLookup]

/-- Witness for C9 at a concrete input, with time-checking enabled. -/
theorem c9_create_roundtrip_noop_witness :
    runPass [r9] [ac9] true = .ok [SyncAction.noop r9 ac9] :=
  c9_create_roundtrip_noop r9 ac9 "ABC123" 4567 true rfl (by decide) rfl rfl rfl rfl rfl

/-- Claim C10 (confirmed).  The reconciliation dictionary maps every key to
the value of the LAST pair carrying it in extraction order, so of several
kept events sharing one confirmation code only the one occurring last in
the start-sorted extractor output participates in matching.  The concrete
conjuncts show the extractor emitting both duplicates, and a pass in which
the access code matching the later duplicate's digits yields a NoOp — the
earlier duplicate (different digits) is ignored. -/
theorem c10_duplicate_last_wins :
    (∀ (ress : List EventData) (k : String),
      alLookup k (resItems ress) = findLastVal k (ress.filterMap confPair)) ∧
    get_future_events (some [compD1, compD2]) cfg0 nowC = .ok [evD1, evD2] ∧
    evD1.confirmation_code = some "DUP222" ∧
    evD2.confirmation_code = some "DUP222" ∧
    runPass [evD1, evD2] [acD] false = .ok [SyncAction.noop evD2 acD] := by
  refine ⟨?_, rfl, rfl, rfl, rfl⟩
  intro ress k
  exact alLookup_buildDict k (ress.filterMap confPair)

end AirbnbSync
